import Mathlib

/-!
Verification of the DQN agent core (`p1_navigation/dqn_agent.py`).

Shallow embedding conventions:
- Python floats are modelled as `ℚ` (exact arithmetic).
- `numpy` arrays / `torch` tensors holding a batch are modelled as `List`s;
  a per-state action-value vector is a `List ℚ`.
- The two networks (`self._model`, `self._model_target`) are modelled as an
  opaque parameter value of a type `θ` together with an evaluation function
  `θ → σ → List ℚ` mapping parameters and a state to the action-value row.
- Randomness (`random.random()`, `random.sample`, `random.choice`) is made
  explicit: each random draw becomes an argument of the embedded function,
  constrained by the documented contract of the library primitive.
- Fallible operations return `Except String`.
-/

namespace DqnSpec

/-- The `Transition` namedtuple
`("state", "action", "reward", "next_state", "done")`. -/
structure Transition (σ : Type) where
  state : σ
  action : Nat
  reward : ℚ
  next_state : σ
  done : Bool
deriving DecidableEq, Repr

/-- One `deque.append` on a deque with `maxlen = C` (Python semantics):
the new element goes to the right and, if the deque already holds `C`
elements, the leftmost (oldest) element is discarded; with `C = 0` the
deque stays empty. -/
def dequeAppend (C : Nat) (buf : List α) (x : α) : List α :=
  (buf ++ [x]).drop (buf.length + 1 - C)

/-- `Memory`: fixed-size buffer to store experience tuples, backed by
`deque(maxlen=buffer_size)`. -/
structure Memory (σ : Type) where
  buffer_size : Nat
  buffer : List (Transition σ)
deriving DecidableEq, Repr

/-- `Memory.__init__(buffer_size)`: an empty deque with
`maxlen = buffer_size`. -/
def Memory.new (σ : Type) (buffer_size : Nat) : Memory σ :=
  { buffer_size := buffer_size, buffer := [] }

/-- `Memory.append(state, action, reward, next_state, done)`. -/
def Memory.append (m : Memory σ) (t : Transition σ) : Memory σ :=
  { m with buffer := dequeAppend m.buffer_size m.buffer t }

/-- A sequence of `Memory.append` calls. -/
def Memory.appendAll (m : Memory σ) (ts : List (Transition σ)) : Memory σ :=
  ts.foldl Memory.append m

/-- `Memory.__len__`. -/
def Memory.len (m : Memory σ) : Nat :=
  m.buffer.length

/-- `Memory.sample(batch_size)` (source lines 36-51).
`random.sample(self._buffer, k=batch_size)` raises
`ValueError("Sample larger than population or is negative")` when
`batch_size > len(self._buffer)`; otherwise it returns `batch_size` distinct
elements chosen uniformly without replacement.  The random draw is made
explicit as the list `draw` of chosen buffer positions (the contract of
`random.sample` gives `draw.length = batch_size`, `draw.Nodup` and every
position in range); `dflt` is the junk default of `List.getD`, never read
when `draw` is in range.  The `if e is not None` filters in the source are
vacuous because every stored element is a `Transition`, never `None`.  The
`.astype(np.uint8)` cast maps each boolean done flag to 1 or 0. -/
def Memory.sample (dflt : Transition σ) (m : Memory σ) (batch_size : Nat)
    (draw : List Nat) :
    Except String (List σ × List Nat × List ℚ × List σ × List Nat) :=
  if batch_size > m.buffer.length then
    Except.error "Sample larger than population or is negative"
  else
    let experiences := draw.map (fun i => m.buffer.getD i dflt)
    Except.ok (experiences.map Transition.state,
               experiences.map Transition.action,
               experiences.map Transition.reward,
               experiences.map Transition.next_state,
               experiences.map (fun e => if e.done then 1 else 0))

/-- The `Memory.sample` call viewed as a state transformer on the memory
object: the method only reads `self._buffer` (`random.sample` copies its
population and mutates nothing), so the memory after the call is exactly
the memory before it, whether the call fails or succeeds. -/
def Memory.sampleRun (dflt : Transition σ) (m : Memory σ) (batch_size : Nat)
    (draw : List Nat) :
    Memory σ ×
      Except String (List σ × List Nat × List ℚ × List σ × List Nat) :=
  (m, m.sample dflt batch_size draw)

/-- The maximum entry of an action-value row, as computed by
`tensor.max(1)[0]` per row (rows are nonempty in the program: the action
space is nonempty).  On `[]` we return the junk value 0. -/
def listMax : List ℚ → ℚ
  | [] => 0
  | [x] => x
  | x :: y :: rest => max x (listMax (y :: rest))

/-- First-occurrence argmax over an action-value row: the semantics of
`np.argmax` (documented first occurrence) and of `torch.argmax` as used on
lines 104 and 125.  On `[]` we return the junk value 0. -/
def argmaxIdx : List ℚ → Nat
  | [] => 0
  | [_] => 0
  | x :: y :: rest =>
      if listMax (y :: rest) ≤ x then 0 else argmaxIdx (y :: rest) + 1

/-- The per-row bootstrap value `q_next` computed by `DqnAgent._learn`
(source lines 123-128) from the parameters `θo` of `self._model`, the
parameters `θt` of `self._model_target`, and the batch of next states.
With `double_dqn` set, the target row is gathered at the online argmax
(`q_next.gather(1, actions_online.unsqueeze(-1))`); otherwise the row
maximum `q_next.max(1)[0]` is taken. -/
def qNextOf (double_dqn : Bool) (model : θ → σ → List ℚ) (θo θt : θ)
    (next_states : List σ) : List ℚ :=
  if double_dqn then
    next_states.map (fun s => (model θt s).getD (argmaxIdx (model θo s)) 0)
  else
    next_states.map (fun s => listMax (model θt s))

/-- The TD targets `q_targets = rewards + (gamma * q_next * (1 - dones))`
(source line 130), elementwise over the batch; `dones` comes from the
uint8 cast of the boolean flags, so `1 - dones` is 0 on terminal rows and
1 elsewhere. -/
def qTargets (gamma : ℚ) : List ℚ → List ℚ → List Bool → List ℚ
  | r :: rs, q :: qs, d :: ds =>
      (r + gamma * q * (1 - if d then (1 : ℚ) else 0)) :: qTargets gamma rs qs ds
  | _, _, _ => []

/-- `DqnAgent._act(state, epsilon)` (source lines 89-105).  The evaluation
of `self._model` on the state (under `torch.no_grad()`, in `eval` mode) is
the row `action_values`; the `random.random()` draw is `r`
(`0 ≤ r < 1` by the contract of `random.random`); the `random.choice`
draw is the index `choiceIdx` into the action array.  When `r > epsilon`
the function returns `np.argmax(action_values)`, else a uniformly chosen
element of `actions`. -/
def act (epsilon r : ℚ) (action_values : List ℚ) (actions : List Nat)
    (choiceIdx : Nat) : Nat :=
  if r > epsilon then argmaxIdx action_values
  else actions.getD choiceIdx 0

/-- The online / target parameter pair held by a `DqnAgent`
(`self._model`, `self._model_target`), with the network abstracted to its
parameter value. -/
structure ModelPair (θ : Type) where
  model : θ
  model_target : θ
deriving DecidableEq, Repr

/-- The target-network update on lines 236-238:
`self._model_target.load_state_dict(copy.deepcopy(self._model.state_dict()))`,
i.e. the target parameters are overwritten with a copy of the online
parameters. -/
def syncTargetNetwork (p : ModelPair θ) : ModelPair θ :=
  { p with model_target := p.model }

/-- Effect of one iteration of the inner `while True` loop of
`DqnAgent.train` (source lines 219-242) on the model pair.  `learnUpd`
abstracts one `_learn` call (a gradient step that touches only the online
parameters; the target values are `.detach()`ed); it runs only when the
buffer guard held (`doLearn`).  Afterwards, the target network is
synchronized exactly when `i_step % target_network_update_frequency == 0`,
where `i_step` is the episode-local step counter. -/
def innerStep (target_network_update_frequency i_step : Nat)
    (learnUpd : θ → θ) (doLearn : Bool) (p : ModelPair θ) : ModelPair θ :=
  let p1 := if doLearn then { p with model := learnUpd p.model } else p
  if i_step % target_network_update_frequency == 0 then syncTargetNetwork p1
  else p1

/-- The checkpoint dict written by `DqnAgent._save_model` and read back by
`DqnAgent.train`; `θ` is the type of `model_state_dict`, `ω` the type of
`optimizer_state_dict`. -/
structure Checkpoint (θ ω : Type) where
  epoch : Nat
  epsilon : ℚ
  model_state_dict : θ
  optimizer_state_dict : ω
  score_history : List ℚ
deriving DecidableEq, Repr

/-- State of the checkpoint file on disk when `train` starts: absent,
present but unreadable (corrupt), or present with a payload. -/
inductive CheckpointFile (θ ω : Type) where
  | missing
  | unreadable
  | present (c : Checkpoint θ ω)
deriving DecidableEq, Repr

/-- The `try: checkpoint = torch.load(...) except FileNotFoundError:
checkpoint = None` block on lines 177-180.  A missing file raises
`FileNotFoundError`, which is caught and yields `None`; any other load
failure (corrupt/unreadable file) propagates. -/
def torchLoad : CheckpointFile θ ω → Except String (Option (Checkpoint θ ω))
  | CheckpointFile.missing => Except.ok none
  | CheckpointFile.unreadable => Except.error "unreadable checkpoint"
  | CheckpointFile.present c => Except.ok (some c)

/-- The mutable training state right after the restore block of
`DqnAgent.train` (lines 186-196): episode counter `i0`, exploration rate
`eps`, score history, the two parameter sets, and the optimizer state. -/
structure InitState (θ ω : Type) where
  i0 : Nat
  eps : ℚ
  scores : List ℚ
  model : θ
  model_target : θ
  optimizer : ω
deriving DecidableEq, Repr

/-- The initialization phase of `DqnAgent.train` (lines 177-196): load the
checkpoint file; on `None` start cold with `i0 = 0`, `eps = 1.0` and empty
scores, keeping the constructor-time parameters `model0` / `target0` and
the fresh optimizer `opt0`; on a payload restore the counters and load
`checkpoint['model_state_dict']` into BOTH the online and the target
network (lines 194-195), and the optimizer state. -/
def trainInit (file : CheckpointFile θ ω) (model0 target0 : θ) (opt0 : ω) :
    Except String (InitState θ ω) :=
  match torchLoad file with
  | Except.error e => Except.error e
  | Except.ok none =>
      Except.ok { i0 := 0, eps := 1, scores := [],
                  model := model0, model_target := target0,
                  optimizer := opt0 }
  | Except.ok (some c) =>
      Except.ok { i0 := c.epoch, eps := c.epsilon, scores := c.score_history,
                  model := c.model_state_dict,
                  model_target := c.model_state_dict,
                  optimizer := c.optimizer_state_dict }

/-- `DqnAgent.train` with everything after the restore block (the episode
loop, lines 198-265) abstracted into `runEpisodes`, which maps the restored
state to the returned score list.  The structure mirrors the source: the
checkpoint load happens first, and an uncaught load failure aborts `train`
before any episode runs. -/
def train (runEpisodes : InitState θ ω → List ℚ)
    (file : CheckpointFile θ ω) (model0 target0 : θ) (opt0 : ω) :
    Except String (List ℚ) :=
  match trainInit file model0 target0 opt0 with
  | Except.error e => Except.error e
  | Except.ok st => Except.ok (runEpisodes st)

/-- The episode-local step counts at which the target network is
synchronized during one episode of length `L`: `i_step` starts at 0 when
the episode starts (line 218), is incremented at the top of the inner loop
(line 220), and sync fires when
`i_step % target_network_update_frequency == 0` (line 236). -/
def episodeSyncLocals (L freq : Nat) : List Nat :=
  (List.range L).filterMap
    (fun j => if (j + 1) % freq == 0 then some (j + 1) else none)

/-- The global (cumulative-over-the-run) step counts at which the target
network is synchronized, for a run whose episodes have the given lengths,
with `offset` environment steps already elapsed.  Each episode resets the
local counter, so its sync points are its local sync points shifted by the
steps elapsed in earlier episodes. -/
def syncGlobals : List Nat → Nat → Nat → List Nat
  | [], _, _ => []
  | L :: rest, freq, offset =>
      (episodeSyncLocals L freq).map (fun s => offset + s) ++
        syncGlobals rest freq (offset + L)

/-- The default warm-up threshold on lines 207-208:
`replay_start_size = batch_size * 2` when the caller passes `None`. -/
def replayStartSizeDefault (batch_size : Nat) : Nat :=
  batch_size * 2

/-- The learning guard on line 230:
`len(self._memory) > replay_start_size`. -/
def learnGuard (memLen replay_start_size : Nat) : Bool :=
  replay_start_size < memLen

/-- The guarded learner invocation on lines 230-233: `Memory.sample` is
called only when the guard `len(self._memory) > replay_start_size` holds,
otherwise no sample is drawn on this step. -/
def guardedSample (dflt : Transition σ) (m : Memory σ)
    (batch_size replay_start_size : Nat) (draw : List Nat) :
    Option (Except String (List σ × List Nat × List ℚ × List σ × List Nat)) :=
  if learnGuard m.buffer.length replay_start_size then
    some (m.sample dflt batch_size draw)
  else none

/-! ### Helper lemmas -/

theorem dequeAppend_eq_of_lt (C : Nat) (buf : List α) (x : α)
    (h : buf.length < C) : dequeAppend C buf x = buf ++ [x] := by
  unfold dequeAppend
  have : buf.length + 1 - C = 0 := by omega
  rw [this, List.drop_zero]

/-- Folding `dequeAppend C` over a list of pushed elements keeps exactly
the last `C` elements (in push order). -/
theorem dequeAppend_foldl (C : Nat) (xs : List α) :
    ∀ buf : List α, buf.length ≤ C →
      List.foldl (dequeAppend C) buf xs =
        (buf ++ xs).drop (buf.length + xs.length - C) := by
  induction xs with
  | nil =>
    intro buf hbuf
    simp only [List.foldl_nil, List.length_nil, List.append_nil, Nat.add_zero]
    have : buf.length - C = 0 := by omega
    rw [this, List.drop_zero]
  | cons x xs ih =>
    intro buf hbuf
    simp only [List.foldl_cons, List.length_cons]
    by_cases hlt : buf.length < C
    · rw [dequeAppend_eq_of_lt C buf x hlt]
      have h1 : (buf ++ [x]).length ≤ C := by simp; omega
      rw [ih (buf ++ [x]) h1]
      simp only [List.length_append, List.length_singleton, List.append_assoc,
        List.singleton_append]
      congr 1
      omega
    · have heq : buf.length = C := by omega
      have hd1 : dequeAppend C buf x = (buf ++ [x]).drop 1 := by
        unfold dequeAppend
        congr 1
        omega
      rw [hd1]
      have h2 : ((buf ++ [x]).drop 1).length ≤ C := by
        simp only [List.length_drop, List.length_append, List.length_singleton]
        omega
      rw [ih _ h2]
      have h3 : ((buf ++ [x]).drop 1).length = C := by
        simp only [List.length_drop, List.length_append, List.length_singleton]
        omega
      rw [h3]
      have h5 : C + xs.length - C = xs.length := by omega
      rw [h5]
      have h4 : ((buf ++ [x]) ++ xs).drop 1 = (buf ++ [x]).drop 1 ++ xs :=
        List.drop_append_of_le_length (by simp)
      rw [← h4, List.drop_drop]
      simp only [List.append_assoc, List.singleton_append]
      congr 1
      omega

theorem memory_foldl_buffer (ts : List (Transition σ)) :
    ∀ m : Memory σ, (m.appendAll ts).buffer =
      List.foldl (dequeAppend m.buffer_size) m.buffer ts := by
  induction ts with
  | nil => intro m; rfl
  | cons t ts ih =>
    intro m
    show ((m.append t).appendAll ts).buffer = _
    rw [ih (m.append t)]
    rfl

theorem memory_appendAll_buffer (C : Nat) (σ : Type)
    (ts : List (Transition σ)) :
    ((Memory.new σ C).appendAll ts).buffer = ts.drop (ts.length - C) := by
  rw [memory_foldl_buffer ts (Memory.new σ C)]
  show List.foldl (dequeAppend C) [] ts = ts.drop (ts.length - C)
  rw [dequeAppend_foldl C ts [] (by simp)]
  simp

theorem getD_map_of_lt (f : α → β) (l : List α) (j : Nat)
    (h : j < l.length) (d : β) (d' : α) :
    (l.map f).getD j d = f (l.getD j d') := by
  rw [List.getD_eq_getElem?_getD, List.getD_eq_getElem?_getD,
    List.getElem?_map, List.getElem?_eq_getElem h]
  rfl

theorem listMax_cons (x : ℚ) (ys : List ℚ) (h : ys ≠ []) :
    listMax (x :: ys) = max x (listMax ys) := by
  cases ys with
  | nil => cases h rfl
  | cons y rest => rfl

theorem argmaxIdx_cons (x : ℚ) (ys : List ℚ) (h : ys ≠ []) :
    argmaxIdx (x :: ys) =
      if listMax ys ≤ x then 0 else argmaxIdx ys + 1 := by
  cases ys with
  | nil => cases h rfl
  | cons y rest => rfl

/-- Gathering a row at its own first-occurrence argmax yields the row
maximum. -/
theorem getD_argmaxIdx (l : List ℚ) (h : l ≠ []) :
    l.getD (argmaxIdx l) 0 = listMax l := by
  induction l with
  | nil => cases h rfl
  | cons x ys ih =>
    cases ys with
    | nil => rfl
    | cons y rest =>
      rw [argmaxIdx_cons x (y :: rest) (by simp),
        listMax_cons x (y :: rest) (by simp)]
      by_cases hle : listMax (y :: rest) ≤ x
      · rw [if_pos hle, max_eq_left hle]
        rfl
      · rw [if_neg hle, max_eq_right (le_of_not_le hle), List.getD_cons_succ]
        exact ih (by simp)

/-- The argmax index is in range for a nonempty row. -/
theorem argmaxIdx_lt_length (l : List ℚ) (h : l ≠ []) :
    argmaxIdx l < l.length := by
  induction l with
  | nil => cases h rfl
  | cons x ys ih =>
    cases ys with
    | nil => simp [argmaxIdx]
    | cons y rest =>
      rw [argmaxIdx_cons x (y :: rest) (by simp)]
      by_cases hle : listMax (y :: rest) ≤ x
      · rw [if_pos hle]
        simp
      · rw [if_neg hle]
        have := ih (by simp)
        simp only [List.length_cons] at this ⊢
        omega

/-- Every entry strictly before the argmax index is strictly below the row
maximum: the argmax is the FIRST index attaining the maximum. -/
theorem getD_lt_of_lt_argmaxIdx (l : List ℚ) :
    ∀ j, j < argmaxIdx l → l.getD j 0 < listMax l := by
  induction l with
  | nil =>
    intro j hj
    simp [argmaxIdx] at hj
  | cons x ys ih =>
    cases ys with
    | nil =>
      intro j hj
      simp [argmaxIdx] at hj
    | cons y rest =>
      intro j hj
      rw [argmaxIdx_cons x (y :: rest) (by simp)] at hj
      by_cases hle : listMax (y :: rest) ≤ x
      · rw [if_pos hle] at hj
        omega
      · rw [if_neg hle] at hj
        rw [listMax_cons x (y :: rest) (by simp),
          max_eq_right (le_of_not_le hle)]
        cases j with
        | zero =>
          simpa using lt_of_not_le hle
        | succ j' =>
          rw [List.getD_cons_succ]
          exact ih j' (by omega)

/-! ### Claim theorems -/

/-- Claim C1: for every transition in a sampled batch whose done flag is
true, the computed TD target `q_targets[i]` equals the reward of that
transition alone, for EVERY discount factor `gamma` and EVERY bootstrap
column `qs` (in particular the `q_next` computed from the target network
at `next_states`), i.e. independent of both. -/
theorem claim_C1_terminal_bootstrap_zeroing (gamma : ℚ) (rs qs : List ℚ)
    (ds : List Bool) (i : Nat)
    (h1 : i < rs.length) (h2 : i < qs.length) (h3 : i < ds.length)
    (hdone : ds.getD i false = true) :
    (qTargets gamma rs qs ds).getD i 0 = rs.getD i 0 := by
  induction rs generalizing qs ds i with
  | nil => simp at h1
  | cons r rs ih =>
    cases qs with
    | nil => simp at h2
    | cons q qs =>
      cases ds with
      | nil => simp at h3
      | cons d ds =>
        cases i with
        | zero =>
          rw [List.getD_cons_zero] at hdone
          show (qTargets gamma (r :: rs) (q :: qs) (d :: ds)).getD 0 0 = r
          rw [show qTargets gamma (r :: rs) (q :: qs) (d :: ds) =
            (r + gamma * q * (1 - if d then (1 : ℚ) else 0)) ::
              qTargets gamma rs qs ds from rfl]
          rw [List.getD_cons_zero, hdone]
          simp
        | succ i' =>
          rw [List.getD_cons_succ] at hdone
          rw [show qTargets gamma (r :: rs) (q :: qs) (d :: ds) =
            (r + gamma * q * (1 - if d then (1 : ℚ) else 0)) ::
              qTargets gamma rs qs ds from rfl]
          rw [List.getD_cons_succ, List.getD_cons_succ]
          exact ih qs ds i' (by simpa using h1) (by simpa using h2)
            (by simpa using h3) hdone

/-- Witness for C1 at a concrete batch: gamma = 2, rewards [3, 4],
bootstrap [5, 6], dones [false, true]; row 1 is terminal and its TD target
is its reward 4. -/
theorem claim_C1_terminal_bootstrap_zeroing_witness :
    (1 < ([(3 : ℚ), 4]).length ∧ 1 < ([(5 : ℚ), 6]).length ∧
      1 < ([false, true]).length ∧ [false, true].getD 1 false = true) ∧
    (qTargets 2 [3, 4] [5, 6] [false, true]).getD 1 0 =
      ([(3 : ℚ), 4]).getD 1 0 :=
  ⟨⟨by decide, by decide, by decide, by decide⟩,
    claim_C1_terminal_bootstrap_zeroing 2 [3, 4] [5, 6] [false, true] 1
      (by decide) (by decide) (by decide) (by decide)⟩

/-- Claim C2: when the online and target estimators have identical
parameters (`θo = θt`, hence identical outputs on every input), the
Double-Q bootstrap (gather the target row at the online argmax) equals the
vanilla bootstrap (row maximum of the target values) on every batch of
next states whose value rows are nonempty, and hence the TD targets built
from them coincide. -/
theorem claim_C2_doubleQ_vanilla_equiv (θ σ : Type)
    (model : θ → σ → List ℚ) (θo θt : θ) (next_states : List σ)
    (gamma : ℚ) (rs : List ℚ) (ds : List Bool)
    (hparam : θo = θt)
    (hne : ∀ s ∈ next_states, model θt s ≠ []) :
    qNextOf true model θo θt next_states =
      qNextOf false model θo θt next_states ∧
    qTargets gamma rs (qNextOf true model θo θt next_states) ds =
      qTargets gamma rs (qNextOf false model θo θt next_states) ds := by
  subst hparam
  have hmain : qNextOf true model θo θo next_states =
      qNextOf false model θo θo next_states := by
    unfold qNextOf
    simp only [if_true]
    refine List.map_congr_left ?_
    intro s hs
    exact getD_argmaxIdx (model θo s) (hne s hs)
  exact ⟨hmain, by rw [hmain]⟩

/-- Witness for C2 at a concrete two-state batch with a two-action model:
both bootstrap modes give the same column, hence the same TD targets. -/
theorem claim_C2_doubleQ_vanilla_equiv_witness :
    ((3 : Nat) = 3 ∧
      (∀ s ∈ [(0 : Nat), 1], (fun (p _ : Nat) => [(p : ℚ), p + 1]) 3 s ≠ [])) ∧
    qNextOf true (fun (p _ : Nat) => [(p : ℚ), p + 1]) 3 3 [0, 1] =
      qNextOf false (fun (p _ : Nat) => [(p : ℚ), p + 1]) 3 3 [0, 1] ∧
    qTargets 1 [0, 0] (qNextOf true (fun (p _ : Nat) => [(p : ℚ), p + 1]) 3 3 [0, 1])
        [false, false] =
      qTargets 1 [0, 0] (qNextOf false (fun (p _ : Nat) => [(p : ℚ), p + 1]) 3 3 [0, 1])
        [false, false] :=
  ⟨⟨rfl, by decide⟩,
    claim_C2_doubleQ_vanilla_equiv Nat Nat (fun (p _ : Nat) => [(p : ℚ), p + 1])
      3 3 [0, 1] 1 [0, 0] [false, false] rfl (by decide)⟩

/-- Claim C3: for every sequence of appends into a buffer of capacity `C`,
the length never exceeds `C`, and after `C + k` appends the buffer holds
exactly the most recent `C` appended transitions in append order — the `k`
oldest have been evicted (FIFO / ring-buffer semantics). -/
theorem claim_C3_buffer_capacity_fifo (σ : Type) (C : Nat)
    (ts : List (Transition σ)) :
    ((Memory.new σ C).appendAll ts).len ≤ C ∧
    ∀ k, ts.length = C + k →
      ((Memory.new σ C).appendAll ts).buffer = ts.drop k := by
  constructor
  · unfold Memory.len
    rw [memory_appendAll_buffer]
    simp only [List.length_drop]
    omega
  · intro k hk
    rw [memory_appendAll_buffer]
    congr 1
    omega

/-- Witness for C3: capacity 2, three appends; the length bound holds and
the buffer retains exactly the last two transitions in order. -/
theorem claim_C3_buffer_capacity_fifo_witness :
    ([⟨1, 1, 1, 1, false⟩, ⟨2, 2, 2, 2, false⟩, ⟨3, 3, 3, 3, true⟩] :
        List (Transition Nat)).length = 2 + 1 ∧
    ((Memory.new Nat 2).appendAll
        [⟨1, 1, 1, 1, false⟩, ⟨2, 2, 2, 2, false⟩, ⟨3, 3, 3, 3, true⟩]).len ≤ 2 ∧
    ((Memory.new Nat 2).appendAll
        [⟨1, 1, 1, 1, false⟩, ⟨2, 2, 2, 2, false⟩, ⟨3, 3, 3, 3, true⟩]).buffer =
      [⟨2, 2, 2, 2, false⟩, ⟨3, 3, 3, 3, true⟩] :=
  ⟨by decide,
    (claim_C3_buffer_capacity_fifo Nat 2
      [⟨1, 1, 1, 1, false⟩, ⟨2, 2, 2, 2, false⟩, ⟨3, 3, 3, 3, true⟩]).1,
    (claim_C3_buffer_capacity_fifo Nat 2
      [⟨1, 1, 1, 1, false⟩, ⟨2, 2, 2, 2, false⟩, ⟨3, 3, 3, 3, true⟩]).2 1
      (by decide)⟩

/-- Claim C6: when `batch_size` is at most the buffer length and the draw
returned by `random.sample` consists of `batch_size` distinct in-range
positions, `Memory.sample` succeeds and returns five arrays of
`batch_size` rows each; row `j` of all five arrays comes from the single
stored transition at buffer position `draw[j]` (which is in range), and
distinct rows come from distinct buffer positions (without replacement
within the call). -/
theorem claim_C6_sample_alignment (σ : Type) (dflt : Transition σ)
    (m : Memory σ) (batch_size : Nat) (draw : List Nat)
    (hbs : batch_size ≤ m.buffer.length)
    (hlen : draw.length = batch_size)
    (hnodup : draw.Nodup)
    (hrange : ∀ i ∈ draw, i < m.buffer.length) :
    m.sample dflt batch_size draw =
      Except.ok
        (draw.map (fun i => (m.buffer.getD i dflt).state),
         draw.map (fun i => (m.buffer.getD i dflt).action),
         draw.map (fun i => (m.buffer.getD i dflt).reward),
         draw.map (fun i => (m.buffer.getD i dflt).next_state),
         draw.map (fun i => if (m.buffer.getD i dflt).done then (1 : Nat) else 0)) ∧
    ((draw.map (fun i => (m.buffer.getD i dflt).state)).length = batch_size ∧
      (draw.map (fun i => (m.buffer.getD i dflt).action)).length = batch_size ∧
      (draw.map (fun i => (m.buffer.getD i dflt).reward)).length = batch_size ∧
      (draw.map (fun i => (m.buffer.getD i dflt).next_state)).length = batch_size ∧
      (draw.map (fun i =>
        if (m.buffer.getD i dflt).done then (1 : Nat) else 0)).length = batch_size) ∧
    (∀ j, j < batch_size →
      draw.getD j 0 < m.buffer.length ∧
      (draw.map (fun i => (m.buffer.getD i dflt).state)).getD j dflt.state =
        (m.buffer.getD (draw.getD j 0) dflt).state ∧
      (draw.map (fun i => (m.buffer.getD i dflt).action)).getD j 0 =
        (m.buffer.getD (draw.getD j 0) dflt).action ∧
      (draw.map (fun i => (m.buffer.getD i dflt).reward)).getD j 0 =
        (m.buffer.getD (draw.getD j 0) dflt).reward ∧
      (draw.map (fun i => (m.buffer.getD i dflt).next_state)).getD j dflt.next_state =
        (m.buffer.getD (draw.getD j 0) dflt).next_state ∧
      (draw.map (fun i =>
        if (m.buffer.getD i dflt).done then (1 : Nat) else 0)).getD j 0 =
        (if (m.buffer.getD (draw.getD j 0) dflt).done then (1 : Nat) else 0)) ∧
    (∀ j1 j2, j1 < batch_size → j2 < batch_size → j1 ≠ j2 →
      draw.getD j1 0 ≠ draw.getD j2 0) := by
  refine ⟨?_, ?_, ?_, ?_⟩
  · unfold Memory.sample
    rw [if_neg (by omega)]
    simp only [List.map_map]
    rfl
  · simp [hlen]
  · intro j hj
    have hj' : j < draw.length := by omega
    refine ⟨?_, ?_, ?_, ?_, ?_, ?_⟩
    · rw [List.getD_eq_getElem draw 0 hj']
      exact hrange _ (List.getElem_mem hj')
    · exact getD_map_of_lt _ draw j hj' _ 0
    · exact getD_map_of_lt _ draw j hj' _ 0
    · exact getD_map_of_lt _ draw j hj' _ 0
    · exact getD_map_of_lt _ draw j hj' _ 0
    · exact getD_map_of_lt _ draw j hj' _ 0
  · intro j1 j2 h1 h2 hne12 heq
    rw [List.getD_eq_getElem draw 0 (n := j1) (by omega),
      List.getD_eq_getElem draw 0 (n := j2) (by omega)] at heq
    exact hne12 (hnodup.getElem_inj_iff.1 heq)

/-- Witness for C6: a three-transition buffer sampled at positions
`[2, 0]` yields the row-aligned batch of the two chosen transitions. -/
theorem claim_C6_sample_alignment_witness :
    ((2 : Nat) ≤ ((⟨5, [⟨10, 0, 1, 11, false⟩, ⟨20, 1, 2, 21, false⟩,
        ⟨30, 2, 3, 31, true⟩]⟩ : Memory Nat)).buffer.length ∧
      ([2, 0] : List Nat).length = 2 ∧ ([2, 0] : List Nat).Nodup ∧
      ∀ i ∈ ([2, 0] : List Nat),
        i < ((⟨5, [⟨10, 0, 1, 11, false⟩, ⟨20, 1, 2, 21, false⟩,
          ⟨30, 2, 3, 31, true⟩]⟩ : Memory Nat)).buffer.length) ∧
    ((⟨5, [⟨10, 0, 1, 11, false⟩, ⟨20, 1, 2, 21, false⟩,
        ⟨30, 2, 3, 31, true⟩]⟩ : Memory Nat)).sample
        ⟨0, 0, 0, 0, false⟩ 2 [2, 0] =
      Except.ok ([30, 10], [2, 0], [3, 1], [31, 11], [1, 0]) := by
  constructor
  · exact ⟨by decide, by decide, by decide, by decide⟩
  · have h := (claim_C6_sample_alignment Nat ⟨0, 0, 0, 0, false⟩
      (⟨5, [⟨10, 0, 1, 11, false⟩, ⟨20, 1, 2, 21, false⟩,
        ⟨30, 2, 3, 31, true⟩]⟩ : Memory Nat) 2 [2, 0]
      (by decide) (by decide) (by decide) (by decide)).1
    rw [h]
    rfl

/-- Claim C7: sampling with a batch size strictly larger than the current
buffer occupancy fails with the invalid-operation error raised by
`random.sample` instead of returning a batch, and the memory object after
the failed call is unchanged. -/
theorem claim_C7_sample_insufficient_error (σ : Type) (dflt : Transition σ)
    (m : Memory σ) (batch_size : Nat) (draw : List Nat)
    (h : batch_size > m.buffer.length) :
    Memory.sampleRun dflt m batch_size draw =
      (m, Except.error "Sample larger than population or is negative") := by
  unfold Memory.sampleRun Memory.sample
  rw [if_pos h]

/-- Witness for C7: a one-transition buffer sampled with batch size 2
fails and is left unchanged. -/
theorem claim_C7_sample_insufficient_error_witness :
    ((2 : Nat) > ((⟨5, [⟨4, 0, 1, 5, false⟩]⟩ : Memory Nat)).buffer.length) ∧
    Memory.sampleRun ⟨0, 0, 0, 0, false⟩
        (⟨5, [⟨4, 0, 1, 5, false⟩]⟩ : Memory Nat) 2 [] =
      ((⟨5, [⟨4, 0, 1, 5, false⟩]⟩ : Memory Nat),
        Except.error "Sample larger than population or is negative") :=
  ⟨by decide,
    claim_C7_sample_insufficient_error Nat ⟨0, 0, 0, 0, false⟩
      (⟨5, [⟨4, 0, 1, 5, false⟩]⟩ : Memory Nat) 2 [] (by decide)⟩

/-- Claim C4: immediately after a target-synchronization event of the
inner training loop (a step whose episode-local counter is a multiple of
the cadence), the target parameters equal the online parameters exactly,
so the two networks agree on any probe state; and restoring from a
checkpoint loads the same `model_state_dict` into both networks
(target mirrors online on load). -/
theorem claim_C4_target_sync_exact (θ σ ω : Type) (model : θ → σ → List ℚ)
    (freq i_step : Nat) (learnUpd : θ → θ) (doLearn : Bool)
    (p : ModelPair θ) (probe : σ) (c : Checkpoint θ ω)
    (model0 target0 : θ) (opt0 : ω)
    (hsync : i_step % freq = 0) :
    (innerStep freq i_step learnUpd doLearn p).model_target =
      (innerStep freq i_step learnUpd doLearn p).model ∧
    model (innerStep freq i_step learnUpd doLearn p).model_target probe =
      model (innerStep freq i_step learnUpd doLearn p).model probe ∧
    trainInit (CheckpointFile.present c) model0 target0 opt0 =
      Except.ok ⟨c.epoch, c.epsilon, c.score_history, c.model_state_dict,
        c.model_state_dict, c.optimizer_state_dict⟩ := by
  have h1 : (innerStep freq i_step learnUpd doLearn p).model_target =
      (innerStep freq i_step learnUpd doLearn p).model := by
    simp only [innerStep, syncTargetNetwork, hsync]
    simp
  exact ⟨h1, by rw [h1], rfl⟩

/-- Witness for C4 at concrete data: cadence 4, step 8, a nontrivial learn
update, and a concrete checkpoint. -/
theorem claim_C4_target_sync_exact_witness :
    (8 % 4 = 0) ∧
    (innerStep 4 8 (fun x => x + 1) true ⟨1, 2⟩).model_target =
      (innerStep 4 8 (fun x => x + 1) true (⟨1, 2⟩ : ModelPair Nat)).model ∧
    (fun (q : Nat) (_ : Nat) => [(q : ℚ)])
        (innerStep 4 8 (fun x => x + 1) true (⟨1, 2⟩ : ModelPair Nat)).model_target 0 =
      (fun (q : Nat) (_ : Nat) => [(q : ℚ)])
        (innerStep 4 8 (fun x => x + 1) true (⟨1, 2⟩ : ModelPair Nat)).model 0 ∧
    trainInit (CheckpointFile.present (⟨7, 1 / 2, 9, 4, [5]⟩ : Checkpoint Nat Nat))
        10 11 12 =
      Except.ok ⟨7, 1 / 2, [5], 9, 9, 4⟩ :=
  ⟨by decide,
    claim_C4_target_sync_exact Nat Nat Nat (fun (q : Nat) (_ : Nat) => [(q : ℚ)])
      4 8 (fun x => x + 1) true ⟨1, 2⟩ 0 ⟨7, 1 / 2, 9, 4, [5]⟩ 10 11 12
      (by decide)⟩

/-- Counterexample to claim C5 as stated: `random.random()` draws from
the interval [0, 1) and CAN return exactly 0.0, while the greedy branch
is guarded by the strict comparison `random.random() > epsilon`, so with
`epsilon = 0` the draw `r = 0` (a value in the documented range) takes the
uniform-random branch, which may return a non-argmax action. -/
theorem claim_C5_counterexample :
    (0 : ℚ) ≤ 0 ∧ (0 : ℚ) < 1 ∧
    act 0 0 [0, 5] [0, 1] 0 = 0 ∧
    argmaxIdx [0, 5] = 1 ∧
    act 0 0 [0, 5] [0, 1] 0 ≠ argmaxIdx [0, 5] := by
  decide

/-- Claim C5 amended: with `epsilon = 0`, for every `random.random()` draw
`r` that is strictly positive (all of [0, 1) except the single value 0),
action selection deterministically returns the pure argmax of the fixed
estimator output: an in-range index holding the row maximum, with every
earlier index strictly below it (ties broken by the first-encountered
index).  The estimator itself is evaluated as a pure function of the fixed
parameters (`torch.no_grad()`, eval mode), so selection mutates nothing. -/
theorem claim_C5_epsilon_zero_greedy (r : ℚ) (action_values : List ℚ)
    (actions : List Nat) (choiceIdx : Nat)
    (hr : 0 < r) (hne : action_values ≠ []) :
    act 0 r action_values actions choiceIdx = argmaxIdx action_values ∧
    argmaxIdx action_values < action_values.length ∧
    action_values.getD (argmaxIdx action_values) 0 = listMax action_values ∧
    (∀ j, j < argmaxIdx action_values →
      action_values.getD j 0 < listMax action_values) := by
  refine ⟨?_, argmaxIdx_lt_length _ hne, getD_argmaxIdx _ hne,
    getD_lt_of_lt_argmaxIdx _⟩
  unfold act
  rw [if_pos hr]

/-- Witness for the amended C5: draw 1/2, a row with a tie between
indices 1 and 2; the greedy selection picks index 1, the first maximum. -/
theorem claim_C5_epsilon_zero_greedy_witness :
    ((0 : ℚ) < 1 / 2 ∧ ([(1 : ℚ), 3, 3]) ≠ []) ∧
    act 0 (1 / 2) [1, 3, 3] [0, 1, 2] 0 = argmaxIdx [1, 3, 3] ∧
    argmaxIdx [(1 : ℚ), 3, 3] < ([(1 : ℚ), 3, 3]).length ∧
    ([(1 : ℚ), 3, 3]).getD (argmaxIdx [1, 3, 3]) 0 = listMax [1, 3, 3] ∧
    ([(1 : ℚ), 3, 3]).getD 0 0 < listMax [1, 3, 3] := by
  have h := claim_C5_epsilon_zero_greedy (1 / 2) [1, 3, 3] [0, 1, 2] 0
    (by norm_num) (by simp)
  exact ⟨⟨by norm_num, by simp⟩, h.1, h.2.1, h.2.2.1,
    h.2.2.2 0 (by decide)⟩

/-- Counterexample to claim C8 as stated: with cadence 4, a first episode
of length 3 and a second of length 4, the episode-local counter makes the
sync fire at global step 7 only — global step 7 is not a multiple of 4,
and no sync fires at global step 4. -/
theorem claim_C8_counterexample :
    syncGlobals [3, 4] 4 0 = [7] ∧ 7 % 4 ≠ 0 ∧
    4 ∉ syncGlobals [3, 4] 4 0 := by
  decide

theorem mem_episodeSyncLocals (L freq s : Nat) :
    s ∈ episodeSyncLocals L freq ↔ (1 ≤ s ∧ s ≤ L ∧ s % freq = 0) := by
  unfold episodeSyncLocals
  rw [List.mem_filterMap]
  constructor
  · rintro ⟨j, hj, hcond⟩
    rw [List.mem_range] at hj
    by_cases hc : (j + 1) % freq = 0
    · rw [if_pos (by simpa using hc)] at hcond
      have hs : j + 1 = s := by injection hcond
      exact ⟨by omega, by omega, by rw [← hs]; exact hc⟩
    · rw [if_neg (by simpa using hc)] at hcond
      cases hcond
  · rintro ⟨h1, h2, h3⟩
    refine ⟨s - 1, ?_, ?_⟩
    · rw [List.mem_range]
      omega
    · have hss : s - 1 + 1 = s := by omega
      rw [hss, if_pos (by simpa using h3)]

/-- Claim C8 amended: the target network is synchronized exactly when the
EPISODE-LOCAL step counter (reset to 0 at each episode start, line 218,
incremented before each step) is a positive multiple of the cadence: the
sync points of a run are the global steps that decompose as the total
length of the completed earlier episodes plus a local step `s` with
`1 ≤ s ≤` current episode length and `s % cadence = 0`. -/
theorem claim_C8_sync_cadence_episode_local (lens : List Nat) (freq : Nat) :
    ∀ (offset g : Nat), g ∈ syncGlobals lens freq offset ↔
      ∃ i s, i < lens.length ∧ 1 ≤ s ∧ s ≤ lens.getD i 0 ∧ s % freq = 0 ∧
        g = offset + (lens.take i).sum + s := by
  induction lens with
  | nil =>
    intro offset g
    simp [syncGlobals]
  | cons L rest ih =>
    intro offset g
    show g ∈ (episodeSyncLocals L freq).map (fun s => offset + s) ++
        syncGlobals rest freq (offset + L) ↔ _
    rw [List.mem_append, List.mem_map]
    constructor
    · rintro (⟨s, hs, rfl⟩ | hmem)
      · rw [mem_episodeSyncLocals] at hs
        exact ⟨0, s, by simp, hs.1, by simpa using hs.2.1, hs.2.2, by simp⟩
      · obtain ⟨i, s, hi, h1, h2, h3, h4⟩ := (ih (offset + L) g).1 hmem
        refine ⟨i + 1, s, by simpa using hi, h1, by simpa using h2, h3, ?_⟩
        rw [List.take_succ_cons, List.sum_cons]
        omega
    · rintro ⟨i, s, hi, h1, h2, h3, h4⟩
      cases i with
      | zero =>
        left
        refine ⟨s, (mem_episodeSyncLocals L freq s).2
          ⟨h1, by simpa using h2, h3⟩, ?_⟩
        simp at h4
        omega
      | succ i' =>
        right
        apply (ih (offset + L) g).2
        refine ⟨i', s, by simpa using hi, h1, by simpa using h2, h3, ?_⟩
        rw [List.take_succ_cons, List.sum_cons] at h4
        omega

/-- Claim C9: a missing checkpoint file is not an error: `train` starts
cold with epoch 0, epsilon 1.0, empty score history, and runs its
episodes; an unreadable (present but corrupt) checkpoint file makes the
load failure propagate and `train` aborts before any episode runs,
whatever the episode loop would have computed. -/
theorem claim_C9_checkpoint_load (θ ω : Type)
    (runEpisodes : InitState θ ω → List ℚ)
    (model0 target0 : θ) (opt0 : ω) :
    trainInit (CheckpointFile.missing) model0 target0 opt0 =
      Except.ok ⟨0, 1, [], model0, target0, opt0⟩ ∧
    train runEpisodes CheckpointFile.missing model0 target0 opt0 =
      Except.ok (runEpisodes ⟨0, 1, [], model0, target0, opt0⟩) ∧
    train runEpisodes CheckpointFile.unreadable model0 target0 opt0 =
      Except.error "unreadable checkpoint" :=
  ⟨rfl, rfl, rfl⟩

/-- Claim C10: when `replay_start_size ≥ batch_size` — which holds in
particular for the default `replay_start_size = batch_size * 2` — every
`Memory.sample` call the training loop makes (it samples only under the
guard `len(self._memory) > replay_start_size`, lines 230-233) succeeds:
the insufficient-data failure of `sample` is unreachable. -/
theorem claim_C10_guarded_sample_safe (σ : Type) (dflt : Transition σ)
    (m : Memory σ) (batch_size replay_start_size : Nat) (draw : List Nat)
    (hrss : batch_size ≤ replay_start_size) :
    batch_size ≤ replayStartSizeDefault batch_size ∧
    ∀ e, guardedSample dflt m batch_size replay_start_size draw = some e →
      e.isOk = true := by
  constructor
  · unfold replayStartSizeDefault
    omega
  · intro e he
    unfold guardedSample at he
    by_cases hg : learnGuard m.buffer.length replay_start_size = true
    · rw [if_pos hg] at he
      have hlen : replay_start_size < m.buffer.length := by
        simpa [learnGuard] using hg
      have hok : m.sample dflt batch_size draw =
          Except.ok
            ((draw.map (fun i => m.buffer.getD i dflt)).map Transition.state,
             (draw.map (fun i => m.buffer.getD i dflt)).map Transition.action,
             (draw.map (fun i => m.buffer.getD i dflt)).map Transition.reward,
             (draw.map (fun i => m.buffer.getD i dflt)).map Transition.next_state,
             (draw.map (fun i => m.buffer.getD i dflt)).map
               (fun e => if e.done then 1 else 0)) := by
        unfold Memory.sample
        rw [if_neg (by omega)]
      rw [hok] at he
      have he' : e = Except.ok _ := (Option.some.inj he).symm
      rw [he']
      rfl
    · rw [if_neg hg] at he
      cases he

/-- Witness for C10: batch size 2 with the default warm-up threshold 4 and
a five-transition buffer; the guard holds and the guarded sample call
succeeds. -/
theorem claim_C10_guarded_sample_safe_witness :
    ((2 : Nat) ≤ 4) ∧
    (2 : Nat) ≤ replayStartSizeDefault 2 ∧
    (Memory.sample (⟨0, 0, 0, 0, false⟩ : Transition Nat)
        (⟨9, [⟨1, 0, 1, 2, false⟩, ⟨2, 1, 1, 3, false⟩, ⟨3, 2, 1, 4, false⟩,
          ⟨4, 3, 1, 5, false⟩, ⟨5, 0, 1, 6, true⟩]⟩ : Memory Nat)
        2 [0, 1]).isOk = true :=
  ⟨by decide,
    (claim_C10_guarded_sample_safe Nat ⟨0, 0, 0, 0, false⟩
      (⟨9, [⟨1, 0, 1, 2, false⟩, ⟨2, 1, 1, 3, false⟩, ⟨3, 2, 1, 4, false⟩,
        ⟨4, 3, 1, 5, false⟩, ⟨5, 0, 1, 6, true⟩]⟩ : Memory Nat)
      2 4 [0, 1] (by decide)).1,
    (claim_C10_guarded_sample_safe Nat ⟨0, 0, 0, 0, false⟩
      (⟨9, [⟨1, 0, 1, 2, false⟩, ⟨2, 1, 1, 3, false⟩, ⟨3, 2, 1, 4, false⟩,
        ⟨4, 3, 1, 5, false⟩, ⟨5, 0, 1, 6, true⟩]⟩ : Memory Nat)
      2 4 [0, 1] (by decide)).2 _ rfl⟩

end DqnSpec
